import Mathlib

/-!
# Verification of the MedDiag clinical document core

Shallow embedding of the core of `src/clinical-pdf-intelligent.py`
(class `IntelligentClinicalExtractor`): the document classifier
(`classify_document` with its `doc_type_patterns` registry), the
lab-report field extractor (`extract_lab_report_data`), the case-report
field extractor (`extract_case_report_data` with `_extract_lab_values`
and `_extract_medications`), and the chunk builder
(`create_specialized_chunks`).

Texts are modelled as `List Char` (ASCII documents; Python `str.lower`
is modelled on the ASCII range).  Python floats are modelled as exact
rationals `ℚ`; every constant occurring in the source (1, 1.5, 0.3, 0.5,
0.2, the per-type weights) is a short decimal fraction, and all the
comparisons the code performs on scores are far from any rounding
boundary, so the rational model agrees with the float computation on
everything proved here.

The source's `re` patterns are embedded through a small backtracking
regular-expression engine (`RE` / `cMat`) whose alternative lists are
produced in Python's backtracking priority order (greedy quantifiers
longest-first, alternation left-first), so the head of the list is
exactly the match Python's engine produces.
-/

/- The Batteries `Rat` operations are `@[irreducible]`, which blocks
`decide` on concrete rational computations; restore the default
reducibility so that kernel evaluation of scores works. -/
set_option allowUnsafeReducibility true in
attribute [semireducible] Rat.inv Rat.mul Rat.add Rat.sub Rat.ofScientific

set_option maxRecDepth 40000

namespace MedDiag

abbrev Str := List Char

/-! ## Character helpers -/

/-- ASCII uppercase test. -/
def isUpperA (c : Char) : Bool := 'A' ≤ c && c ≤ 'Z'

/-- Python `str.lower` on one ASCII character. -/
def lowerChar (c : Char) : Char :=
  if isUpperA c then Char.ofNat (c.toNat + 32) else c

/-- Python `str.lower` (ASCII model). -/
def lowerS (s : Str) : Str := s.map lowerChar

/-- Python whitespace (`str.strip` default set / regex `\s`, ASCII part):
space, tab, newline, carriage return, vertical tab, form feed. -/
def isPyWs (c : Char) : Bool :=
  c = ' ' || c = '\t' || c = '\n' || c = '\r' || c = '\x0b' || c = '\x0c'

/-- Regex `\d`. -/
def isDigitC (c : Char) : Bool := '0' ≤ c && c ≤ '9'

/-- ASCII letter (`[A-Za-z]`). -/
def isAlphaC (c : Char) : Bool := ('A' ≤ c && c ≤ 'Z') || ('a' ≤ c && c ≤ 'z')

/-- Regex `\w` (word character) for ASCII: letters, digits, underscore. -/
def isWordC (c : Char) : Bool := isAlphaC c || isDigitC c || c = '_'

/-- Python substring test `needle in hay`. -/
def occursIn (needle : Str) : Str → Bool
  | [] => needle.isEmpty
  | c :: cs => needle.isPrefixOf (c :: cs) || occursIn needle cs

/-- Python `str.strip()` : drop leading and trailing whitespace. -/
def pyStrip (l : Str) : Str :=
  ((l.dropWhile isPyWs).reverse.dropWhile isPyWs).reverse

/-- Python `str.split('. ')` : split on every non-overlapping occurrence
of the two-character separator, keeping empty parts (`''.split('. ') = ['']`). -/
def splitDotSpace : Str → List Str :=
  go []
where
  /-- Accumulator holds the current part reversed. -/
  go : Str → Str → List Str
    | acc, [] => [acc.reverse]
    | acc, '.' :: ' ' :: rest => acc.reverse :: go [] rest
    | acc, c :: cs => go (c :: acc) cs

/-- Digits-to-number (the parse `int` performs once commas are removed;
the argument is guaranteed by the capturing class to contain digits only). -/
def natOfDigits (s : Str) : Nat :=
  s.foldl (fun acc c => 10 * acc + (c.toNat - 48)) 0

/-- Python `int(v.replace(',', ''))` guarded by the source's `try/except`:
`None` when the comma-stripped string is empty (only commas matched). -/
def parseIntComma (v : Str) : Option Nat :=
  let d := v.filter (fun c => c ≠ ',')
  if d.isEmpty then none else some (natOfDigits d)

/-! ## A small regex engine

`RE` covers exactly the constructs used by the source's patterns:
character classes, literals, sequencing, alternation, class star,
bounded class repetition `{m,n}`, option `?`, a capture group with an
explicit Python group index, and the `$` anchor.  `cMat r s` returns
every way `r` can match a prefix of `s`, as `(rest, groups)` pairs, in
Python's backtracking priority order; `(cMat r s).head?` is therefore
the match Python's engine picks at this position. -/

inductive RE : Type where
  | cls   : (Char → Bool) → RE
  | lit   : Str → RE
  | seq   : RE → RE → RE
  | alt   : RE → RE → RE
  | starC : (Char → Bool) → RE
  | repC  : (Char → Bool) → Nat → Nat → RE
  | opt   : RE → RE
  | grp   : Nat → RE → RE
  | eos   : RE

/-- Rests after a greedy class star, longest consumption first. -/
def starRems (p : Char → Bool) : Str → List Str
  | [] => [[]]
  | c :: cs => (if p c then starRems p cs else []) ++ [c :: cs]

/-- Rests after consuming between `m` and `n` characters of class `p`,
longest consumption first (greedy `{m,n}`). -/
def repRems (p : Char → Bool) (m n : Nat) (s : Str) : List Str :=
  let run := min n (s.takeWhile p).length
  if run < m then []
  else (List.range (run + 1 - m)).map (fun i => s.drop (run - i))

/-- All prefix matches of `r` against `s` in Python priority order:
each element is the remaining suffix paired with the captured groups
(group index, captured text). -/
def cMat : RE → Str → List (Str × List (Nat × Str))
  | .cls p, [] => []
  | .cls p, c :: cs => if p c then [(cs, [])] else []
  | .lit l, s => if l.isPrefixOf s then [(s.drop l.length, [])] else []
  | .seq a b, s =>
      (cMat a s).flatMap (fun (rest, gs) =>
        (cMat b rest).map (fun (rest', gs') => (rest', gs ++ gs')))
  | .alt a b, s => cMat a s ++ cMat b s
  | .starC p, s => (starRems p s).map (fun r => (r, []))
  | .repC p m n, s => (repRems p m n s).map (fun r => (r, []))
  | .opt r, s => cMat r s ++ [(s, [])]
  | .grp i r, s =>
      (cMat r s).map (fun (rest, gs) =>
        (rest, (i, s.take (s.length - rest.length)) :: gs))
  | .eos, s => if s.isEmpty then [([], [])] else []

/-- Does `r` match anywhere in `s` (Python `re.search` as a Boolean)? -/
def searchB (r : RE) : Str → Bool
  | [] => !(cMat r []).isEmpty
  | c :: cs => !(cMat r (c :: cs)).isEmpty || searchB r cs

/-- The groups of a match found at a suffix position. -/
def headGroups (r : RE) (s : Str) : Option (Str × List (Nat × Str)) :=
  (cMat r s).head?.map (fun (rest, gs) => (s.take (s.length - rest.length), gs))

/-- Python `re.search` with captures: leftmost position, then priority
order; `wb` additionally requires a word boundary `\b` before the match
(used for the patterns that begin with `\b`).  Returns
`(group0, groups)`. -/
def searchGo (r : RE) (wb : Bool) : Option Char → Str → Option (Str × List (Nat × Str))
  | prev, s =>
    let here :=
      if wb && (match prev with | some c => isWordC c | none => false) then none
      else headGroups r s
    match here with
    | some m => some m
    | none =>
      match s with
      | [] => none
      | c :: cs => searchGo r wb (some c) cs

/-- Python `re.search` from the start of the text. -/
def reSearch (r : RE) (wb : Bool) (s : Str) : Option (Str × List (Nat × Str)) :=
  searchGo r wb none s

/-- Group lookup by Python group number. -/
def grpGet (gs : List (Nat × Str)) (i : Nat) : Option Str :=
  (gs.find? (fun g => g.1 = i)).map (·.2)

theorem starRems_length_le (p : Char → Bool) (s : Str) :
    ∀ r ∈ starRems p s, r.length ≤ s.length := by
  induction s with
  | nil => intro r hr; simp [starRems] at hr; simp [hr]
  | cons c cs ih =>
    intro r hr
    simp only [starRems, List.mem_append, List.mem_singleton] at hr
    rcases hr with hr | hr
    · have hmem : r ∈ starRems p cs := by
        by_cases hp : p c
        · simpa [hp] using hr
        · simp [hp] at hr
      exact le_trans (ih r hmem) (Nat.le_succ _)
    · subst hr; exact le_refl _

theorem repRems_length_le (p : Char → Bool) (m n : Nat) (s : Str) :
    ∀ r ∈ repRems p m n s, r.length ≤ s.length := by
  intro r hr
  simp only [repRems] at hr
  split at hr
  · simp at hr
  · simp only [List.mem_map] at hr
    obtain ⟨i, _, rfl⟩ := hr
    simp only [List.length_drop]
    omega

theorem cMat_rest_length_le (r : RE) (s : Str) :
    ∀ m ∈ cMat r s, m.1.length ≤ s.length := by
  induction r generalizing s with
  | cls p =>
    intro m hm
    match s with
    | [] => simp [cMat] at hm
    | c :: cs =>
      simp only [cMat] at hm
      split at hm
      · simp only [List.mem_singleton] at hm
        subst hm
        simp only [List.length_cons]
        omega
      · simp at hm
  | lit l =>
    intro m hm
    simp only [cMat] at hm
    split at hm
    · simp only [List.mem_singleton] at hm
      subst hm
      simp only [List.length_drop]
      omega
    · simp at hm
  | seq a b iha ihb =>
    intro m hm
    simp only [cMat, List.mem_flatMap, List.mem_map] at hm
    obtain ⟨⟨rest, gs⟩, h1, ⟨rest', gs'⟩, h2, rfl⟩ := hm
    exact le_trans (ihb rest ⟨rest', gs'⟩ h2) (iha s ⟨rest, gs⟩ h1)
  | alt a b iha ihb =>
    intro m hm
    simp only [cMat, List.mem_append] at hm
    rcases hm with h | h
    · exact iha s m h
    · exact ihb s m h
  | starC p =>
    intro m hm
    simp only [cMat, List.mem_map] at hm
    obtain ⟨rest, h, rfl⟩ := hm
    exact starRems_length_le p s rest h
  | repC p a b =>
    intro m hm
    simp only [cMat, List.mem_map] at hm
    obtain ⟨rest, h, rfl⟩ := hm
    exact repRems_length_le p a b s rest h
  | opt r ih =>
    intro m hm
    simp only [cMat, List.mem_append, List.mem_singleton] at hm
    rcases hm with h | h
    · exact ih s m h
    · simp [h]
  | grp i r ih =>
    intro m hm
    simp only [cMat, List.mem_map] at hm
    obtain ⟨⟨rest, gs⟩, h, rfl⟩ := hm
    exact ih s ⟨rest, gs⟩ h
  | eos =>
    intro m hm
    simp only [cMat] at hm
    split at hm <;> simp_all

/-- Python `re.finditer` / `re.findall`: non-overlapping matches,
scanning left to right, resuming after each match (advancing one
character past a zero-width match, as Python does).  Returns
`(group0, groups)` per match.  The fuel argument (always instantiated
with more fuel than there are characters) makes the recursion
structural, so the definition evaluates inside the kernel; every
recursive call shortens the string, so the fuel is never exhausted. -/
def findIterF (r : RE) : Nat → Str → List (Str × List (Nat × Str))
  | 0, _ => []
  | fuel + 1, s =>
    match headGroups r s with
    | some (g0, gs) =>
      if (s.drop g0.length).length < s.length then
        (g0, gs) :: findIterF r fuel (s.drop g0.length)
      else
        match s with
        | [] => [(g0, gs)]
        | _ :: cs => (g0, gs) :: findIterF r fuel cs
    | none =>
      match s with
      | [] => []
      | _ :: cs => findIterF r fuel cs

/-- `re.finditer` over the whole string. -/
def findIter (r : RE) (s : Str) : List (Str × List (Nat × Str)) :=
  findIterF r (s.length + 1) s

/-! ## Derived pattern helpers -/

/-- `\s*` -/
def wsStar : RE := .starC isPyWs
/-- `\s+` -/
def wsPlus : RE := .seq (.cls isPyWs) (.starC isPyWs)
/-- `\d+` -/
def digPlus : RE := .seq (.cls isDigitC) (.starC isDigitC)
/-- one-character-class `+` -/
def plusC (p : Char → Bool) : RE := .seq (.cls p) (.starC p)
/-- one-character-class `?` -/
def optC (p : Char → Bool) : RE := .opt (.cls p)
/-- case-insensitive literal (for patterns compiled with `re.IGNORECASE`
that run against un-lowered text). -/
def ciLit (l : Str) : RE :=
  l.foldr (fun c acc => .seq (.cls (fun x => lowerChar x = lowerChar c)) acc) (.lit [])

/-! ## Document types and the type-signature registry

Embedding of the `DocumentType` enum and the `doc_type_patterns` table
built in `IntelligentClinicalExtractor.__init__`.  The classifier
lowercases its 3000-character window before matching and compiles its
patterns with `re.IGNORECASE`, so each pattern is embedded here in the
lowercase form it effectively takes on that window. -/

inductive DocumentType : Type where
  | case_report
  | textbook
  | guideline
  | discharge_summary
  | research_article
  | lab_report
  | radiology_report
  | unknown
deriving DecidableEq

structure TypeSig where
  keywords : List Str
  patterns : List RE
  minPages : Option Nat
  maxPages : Option Nat
  weight : ℚ

/-- `r'[Aa]\s+\d{1,3}[\s\-]*year[\s\-]*old'` -/
def patAYearOld : RE :=
  .seq (.cls (fun c => c = 'a'))
    (.seq wsPlus
      (.seq (.repC isDigitC 1 3)
        (.seq (.starC (fun c => isPyWs c || c = '-'))
          (.seq (.lit "year".data)
            (.seq (.starC (fun c => isPyWs c || c = '-')) (.lit "old".data))))))

/-- `r'presented\s+with'` -/
def patPresentedWith : RE := .seq (.lit "presented".data) (.seq wsPlus (.lit "with".data))

/-- `r'was\s+diagnosed\s+with'` -/
def patWasDiagnosedWith : RE :=
  .seq (.lit "was".data) (.seq wsPlus (.seq (.lit "diagnosed".data) (.seq wsPlus (.lit "with".data))))

/-- `r'Chapter\s+\d+'` -/
def patChapterNum : RE := .seq (.lit "chapter".data) (.seq wsPlus digPlus)

/-- `r'Section\s+\d+\.\d+'` -/
def patSectionNum : RE :=
  .seq (.lit "section".data) (.seq wsPlus (.seq digPlus (.seq (.lit ".".data) digPlus)))

/-- `r'Figure\s+\d+\.\d+'` -/
def patFigureNum : RE :=
  .seq (.lit "figure".data) (.seq wsPlus (.seq digPlus (.seq (.lit ".".data) digPlus)))

/-- `r'Level\s+[A-C]\s+evidence'` -/
def patLevelEvidence : RE :=
  .seq (.lit "level".data)
    (.seq wsPlus (.seq (.cls (fun c => 'a' ≤ c && c ≤ 'c')) (.seq wsPlus (.lit "evidence".data))))

/-- `r'Grade\s+\d+[A-C]?\s+recommendation'` -/
def patGradeRec : RE :=
  .seq (.lit "grade".data)
    (.seq wsPlus
      (.seq digPlus
        (.seq (optC (fun c => 'a' ≤ c && c ≤ 'c')) (.seq wsPlus (.lit "recommendation".data)))))

/-- `r'should\s+be\s+(?:considered|performed|avoided)'` -/
def patShouldBe : RE :=
  .seq (.lit "should".data)
    (.seq wsPlus
      (.seq (.lit "be".data)
        (.seq wsPlus
          (.alt (.lit "considered".data) (.alt (.lit "performed".data) (.lit "avoided".data))))))

/-- `r'Date\s+of\s+Admission'` -/
def patDateOfAdmission : RE :=
  .seq (.lit "date".data) (.seq wsPlus (.seq (.lit "of".data) (.seq wsPlus (.lit "admission".data))))

/-- `r'Date\s+of\s+Discharge'` -/
def patDateOfDischarge : RE :=
  .seq (.lit "date".data) (.seq wsPlus (.seq (.lit "of".data) (.seq wsPlus (.lit "discharge".data))))

/-- `r'Discharge\s+Diagnosis'` -/
def patDischargeDiagnosis : RE :=
  .seq (.lit "discharge".data) (.seq wsPlus (.lit "diagnosis".data))

/-- `r'[Pp]\s*[<=]\s*0\.\d+'` -/
def patPValue : RE :=
  .seq (.cls (fun c => c = 'p'))
    (.seq wsStar
      (.seq (.cls (fun c => c = '<' || c = '='))
        (.seq wsStar (.seq (.lit "0.".data) digPlus))))

/-- `r'[Nn]\s*=\s*\d+'` -/
def patNEquals : RE :=
  .seq (.cls (fun c => c = 'n'))
    (.seq wsStar (.seq (.cls (fun c => c = '=')) (.seq wsStar digPlus)))

/-- `r'95%\s+CI'` -/
def patCI : RE := .seq (.lit "95%".data) (.seq wsPlus (.lit "ci".data))

/-- `r'\d+\.\d+\s*-\s*\d+\.\d+'` (reference ranges) -/
def patNumRange : RE :=
  .seq digPlus
    (.seq (.lit ".".data)
      (.seq digPlus
        (.seq wsStar
          (.seq (.lit "-".data)
            (.seq wsStar (.seq digPlus (.seq (.lit ".".data) digPlus)))))))

/-- `r'[HL]\s*$'` (High/Low markers) -/
def patHLEnd : RE := .seq (.cls (fun c => c = 'h' || c = 'l')) (.seq wsStar .eos)

/-- `r'mg/dL|mmol/L|IU/mL'` -/
def patUnits : RE := .alt (.lit "mg/dl".data) (.alt (.lit "mmol/l".data) (.lit "iu/ml".data))

/-- `r'IMPRESSION:'` -/
def patImpression : RE := .lit "impression:".data
/-- `r'FINDINGS:'` -/
def patFindings : RE := .lit "findings:".data
/-- `r'TECHNIQUE:'` -/
def patTechnique : RE := .lit "technique:".data

/-- The `CASE_REPORT` registry entry. -/
def caseReportSig : TypeSig :=
  { keywords := ["case report".data, "case presentation".data, "we report".data,
                 "we present".data, "a case of".data, "rare case".data,
                 "unusual presentation".data]
    patterns := [patAYearOld, patPresentedWith, patWasDiagnosedWith]
    minPages := none, maxPages := some 15, weight := 1 }

/-- The `TEXTBOOK` registry entry. -/
def textbookSig : TypeSig :=
  { keywords := ["chapter".data, "section".data, "learning objectives".data,
                 "review questions".data, "summary".data, "key points".data,
                 "bibliography".data, "references".data, "edition".data]
    patterns := [patChapterNum, patSectionNum, patFigureNum]
    minPages := some 30, maxPages := none, weight := 4/5 }

/-- The `CLINICAL_GUIDELINE` registry entry. -/
def guidelineSig : TypeSig :=
  { keywords := ["guideline".data, "recommendation".data, "protocol".data,
                 "consensus".data, "algorithm".data, "evidence level".data,
                 "grade".data, "standard of care".data]
    patterns := [patLevelEvidence, patGradeRec, patShouldBe]
    minPages := none, maxPages := none, weight := 9/10 }

/-- The `DISCHARGE_SUMMARY` registry entry. -/
def dischargeSummarySig : TypeSig :=
  { keywords := ["discharge".data, "admission".data, "hospital course".data,
                 "discharge diagnosis".data, "discharge medications".data,
                 "follow up".data, "disposition".data]
    patterns := [patDateOfAdmission, patDateOfDischarge, patDischargeDiagnosis]
    minPages := none, maxPages := some 10, weight := 19/20 }

/-- The `RESEARCH_ARTICLE` registry entry. -/
def researchArticleSig : TypeSig :=
  { keywords := ["abstract".data, "introduction".data, "methods".data, "results".data,
                 "discussion".data, "conclusion".data, "participants".data,
                 "study design".data, "statistical analysis".data]
    patterns := [patPValue, patNEquals, patCI]
    minPages := none, maxPages := none, weight := 17/20 }

/-- The `LAB_REPORT` registry entry. -/
def labReportSig : TypeSig :=
  { keywords := ["laboratory".data, "specimen".data, "reference range".data,
                 "abnormal".data, "test name".data, "result".data, "units".data,
                 "collected".data]
    patterns := [patNumRange, patHLEnd, patUnits]
    minPages := none, maxPages := some 5, weight := 9/10 }

/-- The `RADIOLOGY_REPORT` registry entry. -/
def radiologyReportSig : TypeSig :=
  { keywords := ["impression".data, "findings".data, "technique".data,
                 "comparison".data, "indication".data, "ct".data, "mri".data,
                 "xray".data, "ultrasound".data]
    patterns := [patImpression, patFindings, patTechnique]
    minPages := none, maxPages := some 5, weight := 19/20 }

/-- The `doc_type_patterns` registry, in source (insertion) order. -/
def docTypePatterns : List (DocumentType × TypeSig) :=
  [ (.case_report, caseReportSig),
    (.textbook, textbookSig),
    (.guideline, guidelineSig),
    (.discharge_summary, dischargeSummarySig),
    (.research_article, researchArticleSig),
    (.lab_report, labReportSig),
    (.radiology_report, radiologyReportSig) ]

/-! ## `classify_document` -/

/-- Number of keywords found as substrings of the 3000-character window
(the keyword loop of `classify_document`). -/
def kwMatches (sig : TypeSig) (first3k : Str) : Nat :=
  (sig.keywords.filter (fun kw => occursIn kw first3k)).length

/-- Number of regex patterns matching the window (the pattern loop). -/
def patMatches (sig : TypeSig) (first3k : Str) : Nat :=
  (sig.patterns.filter (fun r => searchB r first3k)).length

/-- `if 'min_pages' in indicators and page_count < indicators['min_pages']: score *= 0.3` -/
def penalizeMin (mp : Option Nat) (pageCount : Nat) (score : ℚ) : ℚ :=
  match mp with
  | some m => if pageCount < m then score * (3/10) else score
  | none => score

/-- `if 'max_pages' in indicators and page_count > indicators['max_pages']: score *= 0.5` -/
def penalizeMax (mp : Option Nat) (pageCount : Nat) (score : ℚ) : ℚ :=
  match mp with
  | some m => if m < pageCount then score * (1/2) else score
  | none => score

/-- The per-type score of `classify_document`: 1.0 per matched keyword,
1.5 per matched pattern, page penalties, then — only when at least one
keyword or pattern matched — normalization by
`max(len(keywords) + len(patterns), 1)` and the type weight.  `none`
when the type had no match at all (it is then not entered in `scores`). -/
def typeScore (sig : TypeSig) (first3k : Str) (pageCount : Nat) : Option ℚ :=
  if 0 < kwMatches sig first3k + patMatches sig first3k then
    some (penalizeMax sig.maxPages pageCount
            (penalizeMin sig.minPages pageCount
              ((kwMatches sig first3k : ℚ) + (3/2) * (patMatches sig first3k : ℚ)))
          / ((max (sig.keywords.length + sig.patterns.length) 1 : ℕ) : ℚ)
          * sig.weight)
  else none

/-- The `scores` mapping of `classify_document` in registry order. -/
def candidateScores (text : Str) (pageCount : Nat) : List (DocumentType × ℚ) :=
  docTypePatterns.filterMap (fun e =>
    (typeScore e.2 (lowerS (text.take 3000)) pageCount).map (fun q => (e.1, q)))

/-- `max(scores.items(), key=lambda x: x[1])`: maximum by score, the
earliest entry winning ties (Python's `max` keeps the first maximum). -/
def pickBest : List (DocumentType × ℚ) → Option (DocumentType × ℚ)
  | [] => none
  | x :: xs => some (xs.foldl (fun b y => if b.2 < y.2 then y else b) x)

/-- The structural fallback at the end of `classify_document`. -/
def classifyFallback (text : Str) (pageCount : Nat) : DocumentType × ℚ :=
  if 50 < pageCount then (.textbook, 3/5)
  else if occursIn "patient".data (lowerS (text.take 3000)) &&
          occursIn "diagnosis".data (lowerS (text.take 3000)) then
    (.case_report, 2/5)
  else (.unknown, 0)

/-- `classify_document(text, page_count)`. -/
def classifyDocument (text : Str) (pageCount : Nat) : DocumentType × ℚ :=
  match pickBest (candidateScores text pageCount) with
  | some best => if 1/5 < best.2 then best else classifyFallback text pageCount
  | none => classifyFallback text pageCount

/-! ## `extract_lab_report_data` -/

structure LabTest where
  name : Str
  value : Str
  unit : Str
  reference : Str
deriving DecidableEq

/-- `r'([A-Za-z\s]+):\s*([\d.]+)\s*([a-zA-Z/%]+)?\s*(?:\(|Reference:)?\s*([\d.\-\s]+)?'`
(`lab_pattern`, compiled without flags, i.e. case-sensitively). -/
def labValueRE : RE :=
  .seq (.grp 1 (plusC (fun c => isAlphaC c || isPyWs c)))
    (.seq (.lit ":".data)
      (.seq wsStar
        (.seq (.grp 2 (plusC (fun c => isDigitC c || c = '.')))
          (.seq wsStar
            (.seq (.opt (.grp 3 (plusC (fun c => isAlphaC c || c = '/' || c = '%'))))
              (.seq wsStar
                (.seq (.opt (.alt (.lit "(".data) (.lit "Reference:".data)))
                  (.seq wsStar
                    (.opt (.grp 4 (plusC
                      (fun c => isDigitC c || c = '.' || c = '-' || isPyWs c))))))))))))

/-- The `\b[HL]\b` alternative of the abnormality pattern with
`re.IGNORECASE`: an isolated H/L character (word boundaries on both
sides). -/
def hasIsolatedHL : Option Char → Str → Bool
  | _, [] => false
  | prev, c :: cs =>
      ((c = 'H' || c = 'L' || c = 'h' || c = 'l') &&
        (match prev with | some p => !isWordC p | none => true) &&
        (match cs with | [] => true | d :: _ => !isWordC d)) ||
      hasIsolatedHL (some c) cs

/-- `re.search(r'\b[HL]\b|\*|abnormal|critical', g0, re.IGNORECASE)` as a
Boolean. -/
def abnormalCheck (g0 : Str) : Bool :=
  hasIsolatedHL none g0 || g0.contains '*' ||
    occursIn "abnormal".data (lowerS g0) || occursIn "critical".data (lowerS g0)

structure LabReportData where
  tests : List LabTest
  abnormal_values : List LabTest
  critical_values : List LabTest
deriving DecidableEq

/-- The body of the `extract_lab_report_data` match loop: the match's
test record goes to `abnormal_values` when the abnormality pattern fires
on its `group(0)`, additionally to `critical_values` when `'critical'`
occurs in the lowercased `group(0)`, and always to `tests`. -/
def labStep (d : LabReportData) (m : Str × List (Nat × Str)) : LabReportData :=
  let test : LabTest :=
    { name := pyStrip ((grpGet m.2 1).getD [])
      value := (grpGet m.2 2).getD []
      unit := (grpGet m.2 3).getD []
      reference := (grpGet m.2 4).getD [] }
  let d :=
    if abnormalCheck m.1 then
      { d with
        abnormal_values := d.abnormal_values ++ [test]
        critical_values :=
          if occursIn "critical".data (lowerS m.1) then
            d.critical_values ++ [test]
          else d.critical_values }
    else d
  { d with tests := d.tests ++ [test] }

/-- `extract_lab_report_data(text)`. -/
def extractLabReportData (text : Str) : LabReportData :=
  (findIter labValueRE text).foldl labStep ⟨[], [], []⟩

/-! ## `_extract_lab_values` -/

/-- `[\s\-]` -/
def wsDashC (c : Char) : Bool := isPyWs c || c = '-'

/-- `r'platelet[s]?\s*[:=]?\s*([\d,]+)'` with `re.IGNORECASE`. -/
def plateletRE : RE :=
  .seq (ciLit "platelet".data)
    (.seq (.opt (.cls (fun c => lowerChar c = 's')))
      (.seq wsStar
        (.seq (.opt (.cls (fun c => c = ':' || c = '=')))
          (.seq wsStar (.grp 1 (plusC (fun c => isDigitC c || c = ',')))))))

/-- `r'(?:WBC|white\s+blood\s+cell)[s]?\s*[:=]?\s*([\d,]+)'` with
`re.IGNORECASE`. -/
def wbcRE : RE :=
  .seq (.alt (ciLit "WBC".data)
          (.seq (ciLit "white".data)
            (.seq wsPlus (.seq (ciLit "blood".data) (.seq wsPlus (ciLit "cell".data))))))
    (.seq (.opt (.cls (fun c => lowerChar c = 's')))
      (.seq wsStar
        (.seq (.opt (.cls (fun c => c = ':' || c = '=')))
          (.seq wsStar (.grp 1 (plusC (fun c => isDigitC c || c = ',')))))))

/-- `re.findall` group-1 strings of the platelet pattern. -/
def plateletRaw (text : Str) : List Str :=
  (findIter plateletRE text).filterMap (fun m => grpGet m.2 1)

/-- The platelet series: each raw match parsed with commas stripped and
kept only when `1000 <= val <= 1000000`. -/
def plateletValues (text : Str) : List Nat :=
  (plateletRaw text).filterMap (fun v =>
    (parseIntComma v).bind (fun val =>
      if 1000 ≤ val ∧ val ≤ 1000000 then some val else none))

/-- `re.findall` group-1 strings of the WBC pattern. -/
def wbcRaw (text : Str) : List Str :=
  (findIter wbcRE text).filterMap (fun m => grpGet m.2 1)

/-- The WBC series: kept only when `100 <= val <= 100000`. -/
def wbcValues (text : Str) : List Nat :=
  (wbcRaw text).filterMap (fun v =>
    (parseIntComma v).bind (fun val =>
      if 100 ≤ val ∧ val ≤ 100000 then some val else none))

structure PlateletSeries where
  values : List Nat
  trend : Str
deriving DecidableEq

/-- The `data['diagnostics']['platelets']` entry of `_extract_lab_values`:
present iff the filtered series is non-empty; trend is `'decreasing'`
when there are at least two values and the last is strictly below the
first, else `'stable'`. -/
def extractPlatelets (text : Str) : Option PlateletSeries :=
  let values := plateletValues text
  if values.isEmpty then none
  else some
    { values := values
      trend :=
        if 1 < values.length ∧ values.getLastD 0 < values.headD 0 then
          "decreasing".data
        else "stable".data }

/-- The `data['diagnostics']['wbc']` entry: present iff non-empty. -/
def extractWbc (text : Str) : Option (List Nat) :=
  let values := wbcValues text
  if values.isEmpty then none else some values

/-! ## `_extract_medications` -/

structure Medication where
  name : Str
  dose : Str
  unit : Str
deriving DecidableEq

/-- `(?:in|ol|ide|ate|ine|one|am)` -/
def medSuffixRE : RE :=
  .alt (ciLit "in".data) (.alt (ciLit "ol".data) (.alt (ciLit "ide".data)
    (.alt (ciLit "ate".data) (.alt (ciLit "ine".data)
      (.alt (ciLit "one".data) (ciLit "am".data))))))

/-- `r'([A-Z][a-z]+(?:in|ol|ide|ate|ine|one|am))\s+(\d+)\s*(mg|g|ml)'`
with `re.IGNORECASE` (which makes both letter classes match any ASCII
letter). -/
def medRE1 : RE :=
  .seq (.grp 1 (.seq (.cls isAlphaC) (.seq (plusC isAlphaC) medSuffixRE)))
    (.seq wsPlus
      (.seq (.grp 2 digPlus)
        (.seq wsStar
          (.grp 3 (.alt (ciLit "mg".data) (.alt (ciLit "g".data) (ciLit "ml".data)))))))

/-- `r'(acetaminophen|ibuprofen|aspirin|paracetamol)\s+(\d+)\s*(mg)'`
with `re.IGNORECASE`. -/
def medRE2 : RE :=
  .seq (.grp 1 (.alt (ciLit "acetaminophen".data) (.alt (ciLit "ibuprofen".data)
        (.alt (ciLit "aspirin".data) (ciLit "paracetamol".data)))))
    (.seq wsPlus (.seq (.grp 2 digPlus) (.seq wsStar (.grp 3 (ciLit "mg".data)))))

/-- `_extract_medications`: all matches of both patterns, in pattern
order then document order. -/
def extractMedications (text : Str) : List Medication :=
  [medRE1, medRE2].flatMap (fun r =>
    (findIter r text).filterMap (fun m =>
      match grpGet m.2 1, grpGet m.2 2, grpGet m.2 3 with
      | some n, some d, some u => some ⟨n, d, u⟩
      | _, _, _ => none))

/-! ## `extract_case_report_data` -/

/-- `r'\b(\d{1,3})[\s\-]*year[\s\-]*old'` with `re.IGNORECASE` (the
leading `\b` is enforced by the search wrapper). -/
def ageRE : RE :=
  .seq (.grp 1 (.repC isDigitC 1 3))
    (.seq (.starC wsDashC)
      (.seq (ciLit "year".data) (.seq (.starC wsDashC) (ciLit "old".data))))

/-- `r'\b(male|female|man|woman)\b'` with `re.IGNORECASE`; the trailing
`\b` is encoded as end-of-input or one non-word character. -/
def genderRE : RE :=
  .seq (.grp 1 (.alt (ciLit "male".data) (.alt (ciLit "female".data)
        (.alt (ciLit "man".data) (ciLit "woman".data)))))
    (.alt .eos (.cls (fun c => !isWordC c)))

/-- `r'presented\s+with\s+([^\.]{10,100})'` with `re.IGNORECASE`. -/
def complaintRE : RE :=
  .seq (ciLit "presented".data)
    (.seq wsPlus
      (.seq (ciLit "with".data)
        (.seq wsPlus (.grp 1 (.repC (fun c => c ≠ '.') 10 100)))))

/-- `r'(\d+)\s*days?\s+(?:prior|before|ago)'` with `re.IGNORECASE`. -/
def timelineOnsetRE : RE :=
  .seq (.grp 1 digPlus)
    (.seq wsStar
      (.seq (ciLit "day".data)
        (.seq (.opt (.cls (fun c => lowerChar c = 's')))
          (.seq wsPlus
            (.alt (ciLit "prior".data) (.alt (ciLit "before".data) (ciLit "ago".data)))))))

/-- `r'day\s+(\d+)\s+of\s+(?:admission|illness)'` with `re.IGNORECASE`. -/
def timelineIllnessRE : RE :=
  .seq (ciLit "day".data)
    (.seq wsPlus
      (.seq (.grp 1 digPlus)
        (.seq wsPlus
          (.seq (ciLit "of".data)
            (.seq wsPlus (.alt (ciLit "admission".data) (ciLit "illness".data)))))))

/-- `r'(?:after|following)\s+(\d+)\s*days?'` with `re.IGNORECASE`. -/
def timelineDurationRE : RE :=
  .seq (.alt (ciLit "after".data) (ciLit "following".data))
    (.seq wsPlus
      (.seq (.grp 1 digPlus)
        (.seq wsStar
          (.seq (ciLit "day".data) (.opt (.cls (fun c => lowerChar c = 's')))))))

/-- `r'(?:final\s+)?diagnosis\s*:?\s*([^\.]+)'` with `re.IGNORECASE`. -/
def dxRE1 : RE :=
  .seq (.opt (.seq (ciLit "final".data) wsPlus))
    (.seq (ciLit "diagnosis".data)
      (.seq wsStar
        (.seq (.opt (.cls (fun c => c = ':')))
          (.seq wsStar (.grp 1 (plusC (fun c => c ≠ '.')))))))

/-- `r'diagnosed\s+with\s+([^\.]+)'` with `re.IGNORECASE`. -/
def dxRE2 : RE :=
  .seq (ciLit "diagnosed".data)
    (.seq wsPlus (.seq (ciLit "with".data) (.seq wsPlus (.grp 1 (plusC (fun c => c ≠ '.'))))))

/-- `r'consistent\s+with\s+([^\.]+)'` with `re.IGNORECASE`. -/
def dxRE3 : RE :=
  .seq (ciLit "consistent".data)
    (.seq wsPlus (.seq (ciLit "with".data) (.seq wsPlus (.grp 1 (plusC (fun c => c ≠ '.'))))))

/-- `r'(recovered|died|discharged|transferred)'` with `re.IGNORECASE`. -/
def outcomeRE1 : RE :=
  .grp 1 (.alt (ciLit "recovered".data) (.alt (ciLit "died".data)
    (.alt (ciLit "discharged".data) (ciLit "transferred".data))))

/-- `r'(complete\s+recovery|partial\s+recovery|death)'` with `re.IGNORECASE`. -/
def outcomeRE2 : RE :=
  .grp 1 (.alt (.seq (ciLit "complete".data) (.seq wsPlus (ciLit "recovery".data)))
    (.alt (.seq (ciLit "partial".data) (.seq wsPlus (ciLit "recovery".data)))
      (ciLit "death".data)))

/-- `r'(favorable\s+outcome|poor\s+outcome)'` with `re.IGNORECASE`. -/
def outcomeRE3 : RE :=
  .grp 1 (.alt (.seq (ciLit "favorable".data) (.seq wsPlus (ciLit "outcome".data)))
    (.seq (ciLit "poor".data) (.seq wsPlus (ciLit "outcome".data))))

/-- First-match-wins over an ordered list of patterns (the
`for pattern in ...: if match: ...; break` idiom). -/
def firstSearch (res : List RE) (text : Str) : Option (Str × List (Nat × Str)) :=
  match res with
  | [] => none
  | r :: rs =>
    match reSearch r false text with
    | some m => some m
    | none => firstSearch rs text

/-- The fields of the `extract_case_report_data` record (nested dicts
`patient`, `clinical_findings`, `timeline`, `diagnostics`,
`interventions`, `outcomes` flattened to one structure; a missing dict
key is `none`). -/
structure CaseReportData where
  age : Option Nat
  gender : Option Str
  chief_complaint : Option Str
  onset_days : Option Nat
  illness_day : Option Nat
  duration_days : Option Nat
  platelets : Option PlateletSeries
  wbc : Option (List Nat)
  primary_diagnosis : Option Str
  medications : Option (List Medication)
  outcome_status : Option Str
deriving DecidableEq

/-- `extract_case_report_data(text)`. -/
def extractCaseReportData (text : Str) : CaseReportData :=
  { age := (reSearch ageRE true text).bind (fun m => (grpGet m.2 1).map natOfDigits)
    gender := (reSearch genderRE true text).bind (fun m => (grpGet m.2 1).map lowerS)
    chief_complaint :=
      (reSearch complaintRE false text).bind (fun m => (grpGet m.2 1).map pyStrip)
    onset_days :=
      (reSearch timelineOnsetRE false text).bind (fun m => (grpGet m.2 1).map natOfDigits)
    illness_day :=
      (reSearch timelineIllnessRE false text).bind (fun m => (grpGet m.2 1).map natOfDigits)
    duration_days :=
      (reSearch timelineDurationRE false text).bind (fun m => (grpGet m.2 1).map natOfDigits)
    platelets := extractPlatelets text
    wbc := extractWbc text
    primary_diagnosis :=
      (firstSearch [dxRE1, dxRE2, dxRE3] text).bind (fun m => (grpGet m.2 1).map pyStrip)
    medications :=
      let meds := extractMedications text
      if meds.isEmpty then none else some meds
    outcome_status :=
      (firstSearch [outcomeRE1, outcomeRE2, outcomeRE3] text).bind (fun m => grpGet m.2 1) }

/-! ## `create_specialized_chunks` -/

structure Chunk where
  chunk_id : Str
  text : Str
  chunk_index : Nat
  chunk_type : Str
  document_type : DocumentType
  extra : List (Str × Str)
deriving DecidableEq

/-- `metadata.get('doc_id', 'unknown')` over an association-list model of
the metadata dict. -/
def metaGet (meta : List (Str × Str)) (key dflt : Str) : Str :=
  match meta.find? (fun e => e.1 == key) with
  | some e => e.2
  | none => dflt

/-- Python `s[-n:]` (note `s[-0:]` is the whole string). -/
def pyTailSlice (n : Nat) (l : Str) : Str :=
  if n = 0 then l else l.drop (l.length - n)

/-- One emitted chunk: id `{doc_id}_{index}`, text stripped, the chunk
metadata dict modelled as the explicit fields plus the carried-over
input metadata. -/
def mkChunk (dt : DocumentType) (meta : List (Str × Str)) (buf : Str) (idx : Nat) : Chunk :=
  { chunk_id := metaGet meta "doc_id".data "unknown".data ++ "_".data ++ (Nat.repr idx).data
    text := pyStrip buf
    chunk_index := idx
    chunk_type := "text".data
    document_type := dt
    extra := meta }

/-- The sentence loop of `create_specialized_chunks`: greedy
accumulation into `buf`, rollover emission with overlap re-seeding, a
non-empty sentence-sized unit arriving on an empty buffer falling
through both branches, and a final flush. -/
def chunkLoop (chunkSize overlap : Nat) (dt : DocumentType) (meta : List (Str × Str)) :
    List Str → Str → Nat → List Chunk
  | [], buf, idx => if buf.isEmpty then [] else [mkChunk dt meta buf idx]
  | s :: ss, buf, idx =>
    if buf.length + s.length < chunkSize then
      chunkLoop chunkSize overlap dt meta ss (buf ++ s ++ ['.', ' ']) idx
    else if buf.isEmpty then
      chunkLoop chunkSize overlap dt meta ss buf idx
    else
      mkChunk dt meta buf idx ::
        chunkLoop chunkSize overlap dt meta ss
          ((if overlap < buf.length then pyTailSlice overlap buf else []) ++ s ++ ['.', ' '])
          (idx + 1)

/-- The per-type `(chunk_size, overlap)` table of
`create_specialized_chunks` (the `if/elif` chain). -/
def chunkParams : DocumentType → Nat × Nat
  | .case_report => (512, 128)
  | .textbook => (768, 200)
  | .guideline => (400, 100)
  | .lab_report => (256, 50)
  | _ => (512, 128)

/-- `text.replace('\n', ' ').split('. ')`. -/
def sentencesOf (text : Str) : List Str :=
  splitDotSpace (text.map (fun c => if c = '\n' then ' ' else c))

/-- `create_specialized_chunks(text, doc_type, metadata)`. -/
def createSpecializedChunks (text : Str) (dt : DocumentType) (meta : List (Str × Str)) :
    List Chunk :=
  chunkLoop (chunkParams dt).1 (chunkParams dt).2 dt meta (sentencesOf text) [] 0

/-! ## Substring and strip lemmas -/

theorem isPrefixOf_iff_exists (n : Str) : ∀ v : Str, n.isPrefixOf v = true ↔ ∃ t, v = n ++ t := by
  induction n with
  | nil => intro v; simp [List.isPrefixOf]
  | cons c cs ih =>
    intro v
    match v with
    | [] => simp [List.isPrefixOf]
    | d :: ds =>
      simp only [List.isPrefixOf, Bool.and_eq_true, beq_iff_eq, ih ds, List.cons_append,
        List.cons.injEq]
      constructor
      · rintro ⟨rfl, t, rfl⟩; exact ⟨t, rfl, rfl⟩
      · rintro ⟨t, rfl, rfl⟩; exact ⟨rfl, t, rfl⟩

theorem occursIn_iff (n : Str) : ∀ v : Str, occursIn n v = true ↔ ∃ p s, v = p ++ n ++ s := by
  intro v
  induction v with
  | nil =>
    simp only [occursIn, List.isEmpty_iff]
    constructor
    · rintro rfl
      exact ⟨[], [], rfl⟩
    · rintro ⟨p, s, h⟩
      have h' : p ++ n = [] ∧ s = [] := List.append_eq_nil.1 h.symm
      exact (List.append_eq_nil.1 h'.1).2
  | cons c cs ih =>
    simp only [occursIn, Bool.or_eq_true, isPrefixOf_iff_exists, ih]
    constructor
    · rintro (⟨t, ht⟩ | ⟨p, s, hs⟩)
      · exact ⟨[], t, by simpa using ht⟩
      · exact ⟨c :: p, s, by simp [hs]⟩
    · rintro ⟨p, s, hps⟩
      match p with
      | [] => exact Or.inl ⟨s, by simpa using hps⟩
      | d :: ds =>
        simp only [List.cons_append, List.cons.injEq] at hps
        exact Or.inr ⟨ds, s, hps.2⟩

theorem occursIn_of_append {n p s v : Str} (h : v = p ++ n ++ s) : occursIn n v = true :=
  (occursIn_iff n v).2 ⟨p, s, h⟩

theorem occursIn_self (n : Str) : occursIn n n = true :=
  occursIn_of_append (p := []) (s := []) (by simp)

theorem occursIn_trans {a b v : Str} (h1 : occursIn a b = true) (h2 : occursIn b v = true) :
    occursIn a v = true := by
  obtain ⟨p1, s1, rfl⟩ := (occursIn_iff a b).1 h1
  obtain ⟨p2, s2, rfl⟩ := (occursIn_iff _ v).1 h2
  exact occursIn_of_append (p := p2 ++ p1) (s := s1 ++ s2) (by simp)

theorem occursIn_nil_left (v : Str) : occursIn [] v = true :=
  occursIn_of_append (p := []) (s := v) (by simp)

/-- `strip` applied to a buffer that ends with the appended `'. '`:
the leading whitespace goes, the trailing `' '` goes, the `'.'` stays. -/
theorem pyStrip_append_dot_space (z : Str) :
    pyStrip (z ++ ['.', ' ']) = z.dropWhile isPyWs ++ ['.'] := by
  have h1 : (z ++ ['.', ' ']).dropWhile isPyWs = z.dropWhile isPyWs ++ ['.', ' '] := by
    rw [List.dropWhile_append]
    split
    · next h =>
      simp only [List.isEmpty_iff] at h
      rw [h, List.nil_append]
      decide
    · rfl
  unfold pyStrip
  rw [h1]
  have h2 : (z.dropWhile isPyWs ++ ['.', ' ']).reverse =
      ' ' :: '.' :: (z.dropWhile isPyWs).reverse := by
    simp
  rw [h2]
  have h3 : (' ' :: '.' :: (z.dropWhile isPyWs).reverse).dropWhile isPyWs =
      '.' :: (z.dropWhile isPyWs).reverse := by
    simp only [List.dropWhile_cons]
    rw [if_pos (by decide), if_neg (by decide)]
  rw [h3]
  simp

/-- Reassembling a list from the whitespace-split of its reverse. -/
theorem rev_take_drop (m : Str) :
    (m.reverse.dropWhile isPyWs).reverse ++ (m.reverse.takeWhile isPyWs).reverse = m := by
  rw [← List.reverse_append, List.takeWhile_append_dropWhile, List.reverse_reverse]

/-- The lead-stripped string starts with the fully stripped core. -/
theorem dropWhile_eq_pyStrip_append (s : Str) :
    ∃ w, s.dropWhile isPyWs = pyStrip s ++ w := by
  refine ⟨((s.dropWhile isPyWs).reverse.takeWhile isPyWs).reverse, ?_⟩
  unfold pyStrip
  exact (rev_take_drop (s.dropWhile isPyWs)).symm

/-- Every string is its stripped core with whitespace around it. -/
theorem pyStrip_decomp (s : Str) : ∃ w1 w2, s = w1 ++ pyStrip s ++ w2 := by
  obtain ⟨w, hw⟩ := dropWhile_eq_pyStrip_append s
  refine ⟨s.takeWhile isPyWs, w, ?_⟩
  conv_lhs => rw [← List.takeWhile_append_dropWhile (p := isPyWs) (l := s), hw]
  simp [List.append_assoc]

/-- Closing a buffer keeps (the stripped form of) a unit that was
appended to it: `strip s` occurs in `strip (x ++ s ++ '. ')`. -/
theorem pyStrip_occursIn_seeded (x s : Str) :
    occursIn (pyStrip s) (pyStrip (x ++ s ++ ['.', ' '])) = true := by
  rw [pyStrip_append_dot_space, List.dropWhile_append]
  split
  · next h =>
    obtain ⟨w, hw⟩ := dropWhile_eq_pyStrip_append s
    rw [hw]
    exact occursIn_of_append (p := []) (s := w ++ ['.']) (by simp)
  · obtain ⟨w1, w2, hs⟩ := pyStrip_decomp s
    refine occursIn_of_append (p := x.dropWhile isPyWs ++ w1) (s := w2 ++ ['.']) ?_
    conv_lhs => rw [hs]
    simp [List.append_assoc]

/-- Growing a buffer keeps (the stripped form of) its old content:
`strip s` occurs in `strip (s ++ y ++ '. ')`. -/
theorem pyStrip_occursIn_grown (s y : Str) :
    occursIn (pyStrip s) (pyStrip (s ++ y ++ ['.', ' '])) = true := by
  rw [pyStrip_append_dot_space, List.dropWhile_append]
  split
  · next h =>
    simp only [List.isEmpty_iff] at h
    have hs : pyStrip s = [] := by
      unfold pyStrip
      rw [h]
      simp
    rw [hs]
    exact occursIn_nil_left _
  · obtain ⟨w, hw⟩ := dropWhile_eq_pyStrip_append s
    rw [hw]
    exact occursIn_of_append (p := []) (s := w ++ y ++ ['.']) (by simp)

/-! ## Chunk-loop lemmas -/

/-- A non-empty buffer reaches some emitted chunk: its stripped content
occurs in that chunk's text. -/
theorem chunkLoop_buf_occursIn (cs ov : Nat) (dt : DocumentType) (meta : List (Str × Str)) :
    ∀ (ss : List Str) (buf : Str) (idx : Nat), buf ≠ [] →
      ∃ c ∈ chunkLoop cs ov dt meta ss buf idx, occursIn (pyStrip buf) c.text = true := by
  intro ss
  induction ss with
  | nil =>
    intro buf idx hne
    refine ⟨mkChunk dt meta buf idx, ?_, occursIn_self _⟩
    simp [chunkLoop, List.isEmpty_iff, hne]
  | cons s ss ih =>
    intro buf idx hne
    by_cases h1 : buf.length + s.length < cs
    · obtain ⟨c, hc, ho⟩ := ih (buf ++ s ++ ['.', ' ']) idx (by simp)
      refine ⟨c, ?_, occursIn_trans (pyStrip_occursIn_grown buf s) ho⟩
      simp only [chunkLoop]
      rw [if_pos h1]
      exact hc
    · refine ⟨mkChunk dt meta buf idx, ?_, occursIn_self _⟩
      simp only [chunkLoop]
      rw [if_neg h1, if_neg (by simpa [List.isEmpty_iff] using hne)]
      exact List.mem_cons_self _ _

/-- Coverage of the sentence loop: once the buffer is non-empty no unit
is ever lost; with an empty buffer exactly the initial run of
chunk-sized units is dropped. -/
theorem chunkLoop_coverage (cs ov : Nat) (dt : DocumentType) (meta : List (Str × Str)) :
    ∀ (ss : List Str) (buf : Str) (idx : Nat) (u : Str),
      u ∈ (if buf.isEmpty then ss.dropWhile (fun s => decide (cs ≤ s.length)) else ss) →
      ∃ c ∈ chunkLoop cs ov dt meta ss buf idx, occursIn (pyStrip u) c.text = true := by
  intro ss
  induction ss with
  | nil =>
    intro buf idx u hu
    exfalso
    revert hu
    split <;> simp
  | cons s ss ih =>
    intro buf idx u hu
    by_cases h1 : buf.length + s.length < cs
    · have hu' : u ∈ s :: ss := by
        by_cases hb : buf.isEmpty
        · rw [if_pos hb] at hu
          have hb0 : buf.length = 0 := by
            rw [List.isEmpty_iff] at hb
            simp [hb]
          have hs : ¬ (cs ≤ s.length) := by omega
          rwa [List.dropWhile_cons, if_neg (by simpa using hs)] at hu
        · rwa [if_neg hb] at hu
      rcases List.mem_cons.1 hu' with rfl | hmem
      · obtain ⟨c, hc, ho⟩ :=
          chunkLoop_buf_occursIn cs ov dt meta ss (buf ++ u ++ ['.', ' ']) idx (by simp)
        refine ⟨c, ?_, occursIn_trans (pyStrip_occursIn_seeded buf u) ho⟩
        simp only [chunkLoop]
        rw [if_pos h1]
        exact hc
      · obtain ⟨c, hc, ho⟩ :=
          ih (buf ++ s ++ ['.', ' ']) idx u (by rw [if_neg (by simp)]; exact hmem)
        refine ⟨c, ?_, ho⟩
        simp only [chunkLoop]
        rw [if_pos h1]
        exact hc
    · by_cases hb : buf.isEmpty
      · have hb0 : buf.length = 0 := by
          rw [List.isEmpty_iff] at hb
          simp [hb]
        have hcs : cs ≤ s.length := by omega
        have hu' : u ∈ ss.dropWhile (fun s => decide (cs ≤ s.length)) := by
          rw [if_pos hb, List.dropWhile_cons, if_pos (by simpa using hcs)] at hu
          exact hu
        obtain ⟨c, hc, ho⟩ := ih buf idx u (by rw [if_pos hb]; exact hu')
        refine ⟨c, ?_, ho⟩
        simp only [chunkLoop]
        rw [if_neg h1, if_pos hb]
        exact hc
      · have hu' : u ∈ s :: ss := by rwa [if_neg hb] at hu
        rcases List.mem_cons.1 hu' with rfl | hmem
        · obtain ⟨c, hc, ho⟩ := chunkLoop_buf_occursIn cs ov dt meta ss
            ((if ov < buf.length then pyTailSlice ov buf else []) ++ u ++ ['.', ' '])
            (idx + 1) (by simp)
          refine ⟨c, ?_, occursIn_trans (pyStrip_occursIn_seeded _ u) ho⟩
          simp only [chunkLoop]
          rw [if_neg h1, if_neg hb]
          exact List.mem_cons_of_mem _ hc
        · obtain ⟨c, hc, ho⟩ := ih
            ((if ov < buf.length then pyTailSlice ov buf else []) ++ s ++ ['.', ' '])
            (idx + 1) u (by rw [if_neg (by simp)]; exact hmem)
          refine ⟨c, ?_, ho⟩
          simp only [chunkLoop]
          rw [if_neg h1, if_neg hb]
          exact List.mem_cons_of_mem _ hc

theorem pyTailSlice_subset (n : Nat) (l : Str) : ∀ x ∈ pyTailSlice n l, x ∈ l := by
  intro x hx
  unfold pyTailSlice at hx
  split at hx
  · exact hx
  · exact List.drop_subset _ _ hx

/-- The text of an emitted chunk: non-empty, period-final, and
newline-free whenever the buffer is. -/
theorem mkChunk_text_props (dt : DocumentType) (meta : List (Str × Str)) (z : Str) (idx : Nat)
    (hnl : ∀ ch ∈ z, ch ≠ '\n') :
    (mkChunk dt meta (z ++ ['.', ' ']) idx).text ≠ [] ∧
      (mkChunk dt meta (z ++ ['.', ' ']) idx).text.getLast? = some '.' ∧
      ∀ ch ∈ (mkChunk dt meta (z ++ ['.', ' ']) idx).text, ch ≠ '\n' := by
  have htext : (mkChunk dt meta (z ++ ['.', ' ']) idx).text = z.dropWhile isPyWs ++ ['.'] :=
    pyStrip_append_dot_space z
  refine ⟨?_, ?_, ?_⟩
  · rw [htext]; simp
  · rw [htext]; exact List.getLast?_concat _
  · rw [htext]
    intro ch hch
    rcases List.mem_append.1 hch with h | h
    · exact hnl ch (List.dropWhile_subset _ h)
    · simp only [List.mem_singleton] at h
      subst h
      decide

/-- Text-shape invariant of the sentence loop: the buffer is empty or
ends in `'. '`, is newline-free, and every unit is newline-free; then
every emitted chunk text is non-empty, ends with `'.'`, and contains no
newline. -/
theorem chunkLoop_text_props (cs ov : Nat) (dt : DocumentType) (meta : List (Str × Str)) :
    ∀ (ss : List Str) (buf : Str) (idx : Nat),
      (buf = [] ∨ ∃ z, buf = z ++ ['.', ' ']) →
      (∀ ch ∈ buf, ch ≠ '\n') →
      (∀ s ∈ ss, ∀ ch ∈ s, ch ≠ '\n') →
      ∀ c ∈ chunkLoop cs ov dt meta ss buf idx,
        c.text ≠ [] ∧ c.text.getLast? = some '.' ∧ ∀ ch ∈ c.text, ch ≠ '\n' := by
  intro ss
  induction ss with
  | nil =>
    intro buf idx hshape hnl _ c hc
    simp only [chunkLoop] at hc
    split at hc
    · simp at hc
    · next hne =>
      simp only [List.mem_singleton] at hc
      subst hc
      rcases hshape with rfl | ⟨z, rfl⟩
      · simp at hne
      · exact mkChunk_text_props dt meta z idx
          (fun ch hch => hnl ch (List.mem_append_left _ hch))
  | cons s ss ih =>
    intro buf idx hshape hnl hss c hc
    have hs0 : ∀ ch ∈ s, ch ≠ '\n' := hss s (List.mem_cons_self _ _)
    have hss' : ∀ t ∈ ss, ∀ ch ∈ t, ch ≠ '\n' := fun t ht => hss t (List.mem_cons_of_mem _ ht)
    simp only [chunkLoop] at hc
    by_cases h1 : buf.length + s.length < cs
    · rw [if_pos h1] at hc
      refine ih (buf ++ s ++ ['.', ' ']) idx (Or.inr ⟨buf ++ s, rfl⟩) ?_ hss' c hc
      intro ch hch
      rcases List.mem_append.1 hch with h | h
      · rcases List.mem_append.1 h with h' | h'
        · exact hnl ch h'
        · exact hs0 ch h'
      · simp only [List.mem_cons, List.not_mem_nil, or_false] at h
        rcases h with rfl | rfl <;> decide
    · rw [if_neg h1] at hc
      by_cases hb : buf.isEmpty
      · rw [if_pos hb] at hc
        exact ih buf idx hshape hnl hss' c hc
      · rw [if_neg hb] at hc
        rcases List.mem_cons.1 hc with rfl | hc'
        · rcases hshape with rfl | ⟨z, rfl⟩
          · simp at hb
          · exact mkChunk_text_props dt meta z idx
              (fun ch hch => hnl ch (List.mem_append_left _ hch))
        · refine ih _ (idx + 1)
            (Or.inr ⟨(if ov < buf.length then pyTailSlice ov buf else []) ++ s, rfl⟩)
            ?_ hss' c hc'
          intro ch hch
          rcases List.mem_append.1 hch with h | h
          · rcases List.mem_append.1 h with h' | h'
            · split at h'
              · exact hnl ch (pyTailSlice_subset _ _ ch h')
              · simp at h'
            · exact hs0 ch h'
          · simp only [List.mem_cons, List.not_mem_nil, or_false] at h
            rcases h with rfl | rfl <;> decide

/-- Characters of the parts of `split('. ')` come from the split
string. -/
theorem splitDotSpace_go_chars :
    ∀ (acc rest : Str), ∀ u ∈ splitDotSpace.go acc rest, ∀ c ∈ u, c ∈ acc ∨ c ∈ rest := by
  intro acc rest
  induction acc, rest using splitDotSpace.go.induct with
  | case1 acc =>
    intro u hu c hc
    simp only [splitDotSpace.go, List.mem_singleton] at hu
    subst hu
    exact Or.inl (List.mem_reverse.1 hc)
  | case2 acc rest ih =>
    intro u hu c hc
    simp only [splitDotSpace.go, List.mem_cons] at hu
    rcases hu with rfl | hu
    · exact Or.inl (List.mem_reverse.1 hc)
    · rcases ih u hu c hc with h | h
      · simp at h
      · exact Or.inr (by simp [h])
  | case3 acc c0 cs hne ih =>
    intro u hu c hc
    rw [splitDotSpace.go.eq_3 acc c0 cs hne] at hu
    rcases ih u hu c hc with h | h
    · rcases List.mem_cons.1 h with rfl | h'
      · exact Or.inr (List.mem_cons_self _ _)
      · exact Or.inl h'
    · exact Or.inr (List.mem_cons_of_mem _ h)

theorem splitDotSpace_chars (s : Str) : ∀ u ∈ splitDotSpace s, ∀ c ∈ u, c ∈ s := by
  intro u hu c hc
  rcases splitDotSpace_go_chars [] s u hu c hc with h | h
  · simp at h
  · exact h

/-! ## Classifier lemmas -/

/-- Worst-case normalized weighted score of a signature: every keyword
and every pattern matching, no page penalty. -/
def sigBound (sig : TypeSig) : ℚ :=
  ((sig.keywords.length : ℚ) + (3/2) * (sig.patterns.length : ℚ))
    / ((max (sig.keywords.length + sig.patterns.length) 1 : ℕ) : ℚ) * sig.weight

theorem penalizeMin_nonneg (mp : Option Nat) (pc : Nat) (s : ℚ) (hs : 0 ≤ s) :
    0 ≤ penalizeMin mp pc s := by
  cases mp with
  | none => exact hs
  | some m =>
    simp only [penalizeMin]
    split
    · exact mul_nonneg hs (by norm_num : (0 : ℚ) ≤ 3/10)
    · exact hs

theorem penalizeMin_le (mp : Option Nat) (pc : Nat) (s : ℚ) (hs : 0 ≤ s) :
    penalizeMin mp pc s ≤ s := by
  cases mp with
  | none => exact le_refl s
  | some m =>
    simp only [penalizeMin]
    split
    · exact mul_le_of_le_one_right hs (by norm_num : (3 : ℚ)/10 ≤ 1)
    · exact le_refl s

theorem penalizeMax_nonneg (mp : Option Nat) (pc : Nat) (s : ℚ) (hs : 0 ≤ s) :
    0 ≤ penalizeMax mp pc s := by
  cases mp with
  | none => exact hs
  | some m =>
    simp only [penalizeMax]
    split
    · exact mul_nonneg hs (by norm_num : (0 : ℚ) ≤ 1/2)
    · exact hs

theorem penalizeMax_le (mp : Option Nat) (pc : Nat) (s : ℚ) (hs : 0 ≤ s) :
    penalizeMax mp pc s ≤ s := by
  cases mp with
  | none => exact le_refl s
  | some m =>
    simp only [penalizeMax]
    split
    · exact mul_le_of_le_one_right hs (by norm_num : (1 : ℚ)/2 ≤ 1)
    · exact le_refl s

theorem typeScore_bounds (sig : TypeSig) (f3k : Str) (pc : Nat) (q : ℚ)
    (hw : 0 ≤ sig.weight) (h : typeScore sig f3k pc = some q) :
    0 ≤ q ∧ q ≤ sigBound sig := by
  unfold typeScore at h
  split at h
  case isFalse => exact absurd h (by simp)
  case isTrue =>
    rw [Option.some.injEq] at h
    subst h
    have hkle : kwMatches sig f3k ≤ sig.keywords.length := List.length_filter_le _ _
    have hple : patMatches sig f3k ≤ sig.patterns.length := List.length_filter_le _ _
    have hbase0 : (0 : ℚ) ≤ (kwMatches sig f3k : ℚ) + (3/2) * (patMatches sig f3k : ℚ) := by
      positivity
    have hbase : (kwMatches sig f3k : ℚ) + (3/2) * (patMatches sig f3k : ℚ) ≤
        (sig.keywords.length : ℚ) + (3/2) * (sig.patterns.length : ℚ) := by
      have h1 : (kwMatches sig f3k : ℚ) ≤ (sig.keywords.length : ℚ) := by exact_mod_cast hkle
      have h2 : (patMatches sig f3k : ℚ) ≤ (sig.patterns.length : ℚ) := by exact_mod_cast hple
      linarith
    have hpen0 : (0 : ℚ) ≤ penalizeMax sig.maxPages pc (penalizeMin sig.minPages pc
        ((kwMatches sig f3k : ℚ) + (3/2) * (patMatches sig f3k : ℚ))) :=
      penalizeMax_nonneg _ _ _ (penalizeMin_nonneg _ _ _ hbase0)
    have hpen : penalizeMax sig.maxPages pc (penalizeMin sig.minPages pc
        ((kwMatches sig f3k : ℚ) + (3/2) * (patMatches sig f3k : ℚ))) ≤
        (sig.keywords.length : ℚ) + (3/2) * (sig.patterns.length : ℚ) :=
      le_trans (le_trans (penalizeMax_le _ _ _ (penalizeMin_nonneg _ _ _ hbase0))
        (penalizeMin_le _ _ _ hbase0)) hbase
    have hD : (0 : ℚ) < ((max (sig.keywords.length + sig.patterns.length) 1 : ℕ) : ℚ) := by
      have h1 : (1 : ℕ) ≤ max (sig.keywords.length + sig.patterns.length) 1 :=
        le_max_right _ _
      exact_mod_cast Nat.lt_of_lt_of_le Nat.zero_lt_one h1
    constructor
    · exact mul_nonneg (div_nonneg hpen0 hD.le) hw
    · unfold sigBound
      gcongr

theorem docTypePatterns_bounds :
    ∀ e ∈ docTypePatterns, 0 ≤ e.2.weight ∧ sigBound e.2 ≤ 23/20 := by decide

theorem foldl_pick_mem (xs : List (DocumentType × ℚ)) :
    ∀ b : DocumentType × ℚ, xs.foldl (fun b y => if b.2 < y.2 then y else b) b ∈ b :: xs := by
  induction xs with
  | nil => intro b; simp
  | cons y ys ih =>
    intro b
    simp only [List.foldl_cons]
    rcases List.mem_cons.1 (ih (if b.2 < y.2 then y else b)) with h' | h'
    · rw [h']
      by_cases hc : b.2 < y.2
      · simp [hc]
      · simp [hc]
    · exact List.mem_cons_of_mem _ (List.mem_cons_of_mem _ h')

theorem pickBest_mem {l : List (DocumentType × ℚ)} {x : DocumentType × ℚ}
    (h : pickBest l = some x) : x ∈ l := by
  match l with
  | [] => simp [pickBest] at h
  | a :: as =>
    simp only [pickBest, Option.some.injEq] at h
    rw [← h]
    exact foldl_pick_mem as a

theorem candidateScores_bounds (text : Str) (pc : Nat) :
    ∀ x ∈ candidateScores text pc, 0 ≤ x.2 ∧ x.2 ≤ 23/20 := by
  intro x hx
  simp only [candidateScores, List.mem_filterMap] at hx
  obtain ⟨e, he, heq⟩ := hx
  rw [Option.map_eq_some'] at heq
  obtain ⟨q, hq, hpair⟩ := heq
  have hx2 : x.2 = q := by rw [← hpair]
  obtain ⟨hw, hb⟩ := docTypePatterns_bounds e he
  have hts := typeScore_bounds e.2 _ pc q hw hq
  rw [hx2]
  exact ⟨hts.1, hts.2.trans hb⟩

theorem classifyFallback_bounds (text : Str) (pc : Nat) :
    0 ≤ (classifyFallback text pc).2 ∧ (classifyFallback text pc).2 ≤ 23/20 := by
  unfold classifyFallback
  split_ifs <;> norm_num

/-- Distinct registry keys identify their signatures. -/
theorem key_unique {l : List (DocumentType × TypeSig)} (h : (l.map Prod.fst).Nodup)
    {dt : DocumentType} {s1 s2 : TypeSig} (h1 : (dt, s1) ∈ l) (h2 : (dt, s2) ∈ l) :
    s1 = s2 := by
  induction l with
  | nil => simp at h1
  | cons e es ih =>
    simp only [List.map_cons, List.nodup_cons, List.mem_map] at h
    obtain ⟨hnotin, hnd⟩ := h
    rcases List.mem_cons.1 h1 with h1' | h1'
    · rcases List.mem_cons.1 h2 with h2' | h2'
      · have := h1'.trans h2'.symm
        exact (Prod.mk.injEq _ _ _ _ ▸ this).2
      · exfalso
        exact hnotin ⟨(dt, s2), h2', by rw [← h1']⟩
    · rcases List.mem_cons.1 h2 with h2' | h2'
      · exfalso
        exact hnotin ⟨(dt, s1), h1', by rw [← h2']⟩
      · exact ih hnd h1' h2'

theorem docTypePatterns_keys_nodup : (docTypePatterns.map Prod.fst).Nodup := by decide

theorem mem_candidateScores_iff (text : Str) (pc : Nat) (dt : DocumentType) (sig : TypeSig)
    (hmem : (dt, sig) ∈ docTypePatterns) (q : ℚ) :
    (dt, q) ∈ candidateScores text pc ↔
      typeScore sig (lowerS (text.take 3000)) pc = some q := by
  constructor
  · intro h
    simp only [candidateScores, List.mem_filterMap] at h
    obtain ⟨e, he, heq⟩ := h
    rw [Option.map_eq_some'] at heq
    obtain ⟨v, hv, hpair⟩ := heq
    have hfst : e.1 = dt := congrArg Prod.fst hpair
    have hsnd : v = q := congrArg Prod.snd hpair
    have he' : (dt, e.2) ∈ docTypePatterns := by
      rw [← hfst]
      simpa using he
    have hse : e.2 = sig := key_unique docTypePatterns_keys_nodup he' hmem
    rw [← hse, ← hsnd]
    exact hv
  · intro h
    simp only [candidateScores, List.mem_filterMap]
    exact ⟨(dt, sig), hmem, by rw [h]; rfl⟩

/-- The normalized weighted score as the code computes it (the amended
form of the specification's normalization sentence): raw score, page
penalties, division by `max(len(keywords) + len(patterns), 1)`, times
the weight. -/
def scoreFormula (sig : TypeSig) (first3k : Str) (pageCount : Nat) : ℚ :=
  penalizeMax sig.maxPages pageCount
      (penalizeMin sig.minPages pageCount
        ((kwMatches sig first3k : ℚ) + (3/2) * (patMatches sig first3k : ℚ)))
    / ((max (sig.keywords.length + sig.patterns.length) 1 : ℕ) : ℚ)
    * sig.weight

/-- The normalization the claim describes instead: division by the
match counters `keywordCount + patternCount`. -/
def claimedMatchNormFormula (sig : TypeSig) (first3k : Str) (pageCount : Nat) : ℚ :=
  penalizeMax sig.maxPages pageCount
      (penalizeMin sig.minPages pageCount
        ((kwMatches sig first3k : ℚ) + (3/2) * (patMatches sig first3k : ℚ)))
    / ((kwMatches sig first3k + patMatches sig first3k : ℕ) : ℚ)
    * sig.weight

theorem typeScore_eq_some_iff (sig : TypeSig) (f3k : Str) (pc : Nat) (q : ℚ) :
    typeScore sig f3k pc = some q ↔
      (0 < kwMatches sig f3k + patMatches sig f3k ∧ q = scoreFormula sig f3k pc) := by
  unfold typeScore scoreFormula
  split
  · next h => simp [h, eq_comm]
  · next h => simp [h]

/-! ## Lab-extraction lemmas -/

theorem labStep_invariant (d : LabReportData) (m : Str × List (Nat × Str))
    (h1 : ∀ t ∈ d.critical_values, t ∈ d.abnormal_values)
    (h2 : ∀ t ∈ d.abnormal_values, t ∈ d.tests) :
    (∀ t ∈ (labStep d m).critical_values, t ∈ (labStep d m).abnormal_values) ∧
      (∀ t ∈ (labStep d m).abnormal_values, t ∈ (labStep d m).tests) := by
  by_cases hab : abnormalCheck m.1 = true
  · by_cases hcr : occursIn "critical".data (lowerS m.1) = true
    · simp only [labStep, hab, hcr, if_true]
      constructor
      · intro t ht
        rcases List.mem_append.1 ht with h | h
        · exact List.mem_append_left _ (h1 t h)
        · exact List.mem_append_right _ h
      · intro t ht
        rcases List.mem_append.1 ht with h | h
        · exact List.mem_append_left _ (h2 t h)
        · exact List.mem_append_right _ h
    · simp only [labStep, hab, hcr, if_true, if_false]
      constructor
      · intro t ht
        exact List.mem_append_left _ (h1 t ht)
      · intro t ht
        rcases List.mem_append.1 ht with h | h
        · exact List.mem_append_left _ (h2 t h)
        · exact List.mem_append_right _ h
  · simp only [labStep, hab, if_false]
    constructor
    · intro t ht
      exact h1 t ht
    · intro t ht
      exact List.mem_append_left _ (h2 t ht)

theorem foldl_labStep_invariant (ms : List (Str × List (Nat × Str))) :
    ∀ d : LabReportData,
      (∀ t ∈ d.critical_values, t ∈ d.abnormal_values) →
      (∀ t ∈ d.abnormal_values, t ∈ d.tests) →
      (∀ t ∈ (ms.foldl labStep d).critical_values, t ∈ (ms.foldl labStep d).abnormal_values) ∧
        (∀ t ∈ (ms.foldl labStep d).abnormal_values, t ∈ (ms.foldl labStep d).tests) := by
  induction ms with
  | nil =>
    intro d h1 h2
    exact ⟨h1, h2⟩
  | cons m ms ih =>
    intro d h1 h2
    simp only [List.foldl_cons]
    obtain ⟨g1, g2⟩ := labStep_invariant d m h1 h2
    exact ih _ g1 g2

/-- Membership in a parse-then-range-filter series. -/
theorem filterRange_mem_iff (raws : List Str) (lo hi v : Nat) :
    (v ∈ raws.filterMap (fun r => (parseIntComma r).bind (fun val =>
        if lo ≤ val ∧ val ≤ hi then some val else none))) ↔
      ∃ raw ∈ raws, parseIntComma raw = some v ∧ lo ≤ v ∧ v ≤ hi := by
  simp only [List.mem_filterMap, Option.bind_eq_some]
  constructor
  · rintro ⟨raw, hraw, val, hparse, hif⟩
    split_ifs at hif with hrange
    rw [Option.some.injEq] at hif
    subst hif
    exact ⟨raw, hraw, hparse, hrange.1, hrange.2⟩
  · rintro ⟨raw, hraw, hparse, hlo, hhi⟩
    exact ⟨raw, hraw, v, hparse, by rw [if_pos ⟨hlo, hhi⟩]⟩

/-! ## Concrete scenario texts -/

/-- A text matching all seven CaseReport keywords and all three
CaseReport patterns inside the 3000-character window. -/
def c1text : Str :=
  ("case report case presentation we report we present a case of rare case " ++
   "unusual presentation a 1 year old presented with and was diagnosed with dengue").data

/-- A single 600-character sentence unit (no `'. '` separator). -/
def c2text : Str := List.replicate 600 'a'

/-- The LabReport scenario text. -/
def c4text : Str := "Hemoglobin: 9.2 g/dL (12.0-16.0) L".data

/-- The CaseReport scenario text. -/
def c5text : Str :=
  ("A 34-year-old male presented with fever and was diagnosed with dengue fever. " ++
   "Platelets: 45,000. Platelets: 30,000.").data

/-- Platelet plausibility-filter scenario text. -/
def c8text : Str := "Platelets: 2,000,000. Platelets: 150,000.".data

/-- A lab line whose matched name part contains the word `critical`. -/
def c9text : Str := "critical Na: 120".data

/-- A two-sentence text for chunking witnesses. -/
def chunkDemoText : Str := "Hello world. Bye".data

/-! ## Claims -/

/-- C1 (counterexample): on `c1text` with pageCount 3 every CaseReport
keyword and pattern matches, so `classify_document` returns confidence
(7 + 1.5·3)/10 · 1.0 = 23/20 = 1.15, which exceeds 1 — the claimed
interval [0, 1] is violated. -/
theorem c1_confidence_above_one :
    classifyDocument c1text 3 = (.case_report, 23/20) ∧
      ¬((classifyDocument c1text 3).2 ≤ 1) := by
  refine ⟨by decide, by decide⟩

/-- C1 (amended): for every text and page count the confidence returned
by `classify_document` lies in [0, 23/20]; the bound 23/20 = 1.15 (the
CaseReport signature's worst case) replaces the claimed upper bound 1
and is attained (`c1_confidence_above_one`). -/
theorem c1_confidence_bounds (text : Str) (pageCount : Nat) :
    0 ≤ (classifyDocument text pageCount).2 ∧
      (classifyDocument text pageCount).2 ≤ 23/20 := by
  unfold classifyDocument
  cases hpb : pickBest (candidateScores text pageCount) with
  | none => exact classifyFallback_bounds text pageCount
  | some best =>
    show 0 ≤ (if (1 : ℚ)/5 < best.2 then best else classifyFallback text pageCount).2 ∧
      (if (1 : ℚ)/5 < best.2 then best else classifyFallback text pageCount).2 ≤ 23/20
    by_cases h : (1 : ℚ)/5 < best.2
    · rw [if_pos h]
      exact candidateScores_bounds text pageCount best (pickBest_mem hpb)
    · rw [if_neg h]
      exact classifyFallback_bounds text pageCount

/-- C2 (counterexample): a 600-character text without any `'. '`
separator yields the single sentence unit `c2text` of length ≥ 512
(the CaseReport chunk size), and `create_specialized_chunks` emits no
chunk at all — the unit appears in no emitted chunk, contradicting the
claimed coverage. -/
theorem c2_oversized_unit_dropped :
    createSpecializedChunks c2text .case_report [] = [] ∧
      sentencesOf c2text = [c2text] ∧ 512 ≤ c2text.length := by
  refine ⟨by decide, by decide, by decide⟩

/-- C2 (amended): every sentence unit outside the initial run of units
of length ≥ chunkSize (those arrive while the buffer is still empty and
are silently dropped) appears — up to leading/trailing whitespace
trimming by the chunk `strip()` — in at least one emitted chunk's
text. -/
theorem c2_chunk_coverage (text : Str) (dt : DocumentType) (meta : List (Str × Str)) (u : Str)
    (hu : u ∈ (sentencesOf text).dropWhile
      (fun s => decide ((chunkParams dt).1 ≤ s.length))) :
    ∃ c ∈ createSpecializedChunks text dt meta, occursIn (pyStrip u) c.text = true := by
  have h := chunkLoop_coverage (chunkParams dt).1 (chunkParams dt).2 dt meta
    (sentencesOf text) [] 0 u (by simpa using hu)
  exact h

theorem c2_chunk_coverage_witness :
    ("Hello world".data ∈ (sentencesOf chunkDemoText).dropWhile
        (fun s => decide ((chunkParams .case_report).1 ≤ s.length))) ∧
      ∃ c ∈ createSpecializedChunks chunkDemoText .case_report [],
        occursIn (pyStrip "Hello world".data) c.text = true :=
  ⟨by decide, c2_chunk_coverage chunkDemoText .case_report [] "Hello world".data (by decide)⟩

/-- C3 (counterexample): on the empty string the sentence split yields
`['']`, the empty unit is accumulated as `'. '`, and the final flush
emits one chunk (with text `"."`) — not zero chunks as claimed.
Classification of the empty string does return (Unknown, 0.0). -/
theorem c3_empty_text_emits_one_chunk :
    (createSpecializedChunks [] .case_report []).length = 1 ∧
      classifyDocument [] 0 = (.unknown, 0) := by
  refine ⟨by decide, by decide⟩

theorem chunkParams_pos (dt : DocumentType) : 0 < (chunkParams dt).1 := by
  cases dt <;> decide

theorem chunkLoop_empty_sentence (cs ov : Nat) (dt : DocumentType) (meta : List (Str × Str))
    (h : 0 < cs) :
    (chunkLoop cs ov dt meta [[]] [] 0).map Chunk.text = [['.']] := by
  simp only [chunkLoop]
  rw [if_pos (by simpa using h)]
  simp only [chunkLoop, List.nil_append]
  rw [if_neg (by decide)]
  simp only [mkChunk, List.map_cons, List.map_nil]
  decide

/-- C3 (amended): `classify_document("", 0)` returns (Unknown, 0.0),
and for every document type and metadata `create_specialized_chunks`
on the empty string returns exactly one chunk, whose text is `"."`. -/
theorem c3_empty_text_behavior :
    classifyDocument [] 0 = (.unknown, 0) ∧
      ∀ (dt : DocumentType) (meta : List (Str × Str)),
        (createSpecializedChunks [] dt meta).map Chunk.text = [['.']] := by
  refine ⟨by decide, ?_⟩
  intro dt meta
  show (chunkLoop (chunkParams dt).1 (chunkParams dt).2 dt meta
    (sentencesOf []) [] 0).map Chunk.text = [['.']]
  rw [(rfl : sentencesOf [] = [[]])]
  exact chunkLoop_empty_sentence _ _ _ _ (chunkParams_pos dt)

/-- C4 (counterexample): on the LabReport scenario text the lab-value
match ends before the trailing `") L"` (the `group(0)` is
`"Hemoglobin: 9.2 g/dL (12.0-16.0"`), so the abnormality pattern never
sees the `L` marker and `abnormal_values` stays empty — the hemoglobin
record is not flagged, contradicting the claim.  Classification does
return LabReport. -/
theorem c4_lab_marker_not_flagged :
    (extractLabReportData c4text).abnormal_values = [] ∧
      (classifyDocument c4text 2).1 = .lab_report := by
  refine ⟨by decide, by decide⟩

/-- C4 (amended): classification of the scenario text returns
(LabReport, 27/110 ≈ 0.245), and extraction yields exactly one test
record (Hemoglobin, 9.2, g/dL, 12.0-16.0) with empty `abnormal_values`
and `critical_values` — the literal "L" marker lies outside the match
and flags nothing. -/
theorem c4_lab_scenario_amended :
    classifyDocument c4text 2 = (.lab_report, 27/110) ∧
      extractLabReportData c4text =
        { tests := [{ name := "Hemoglobin".data, value := "9.2".data,
                      unit := "g/dL".data, reference := "12.0-16.0".data }]
          abnormal_values := []
          critical_values := [] } := by
  refine ⟨by decide, by decide⟩

/-- C5: the CaseReport scenario: classification returns
(CaseReport, 9/20 = 0.45); extraction finds age 34, gender "male",
platelet trend "decreasing" (45,000 then 30,000), and a primary
diagnosis containing "dengue fever". -/
theorem c5_case_report_scenario :
    classifyDocument c5text 3 = (.case_report, 9/20) ∧
      (extractCaseReportData c5text).age = some 34 ∧
      (extractCaseReportData c5text).gender = some "male".data ∧
      ((extractCaseReportData c5text).platelets.map PlateletSeries.trend) =
        some "decreasing".data ∧
      ∃ d, (extractCaseReportData c5text).primary_diagnosis = some d ∧
        occursIn "dengue fever".data d = true := by
  refine ⟨by decide, by decide, by decide, by decide, "dengue fever".data, by decide, by decide⟩

/-- C6: whenever no registered type attains a candidate score above
0.2, `classify_document` applies the two-rule fallback in order:
pageCount > 50 gives (Textbook, 0.6); else "patient" and "diagnosis"
both in the 3000-character lowered window give (CaseReport, 0.4); else
(Unknown, 0.0). -/
theorem c6_fallback_rules (text : Str) (pageCount : Nat)
    (h : ∀ x ∈ candidateScores text pageCount, x.2 ≤ 1/5) :
    classifyDocument text pageCount =
      if 50 < pageCount then (.textbook, 3/5)
      else if occursIn "patient".data (lowerS (text.take 3000)) &&
              occursIn "diagnosis".data (lowerS (text.take 3000)) then
        (.case_report, 2/5)
      else (.unknown, 0) := by
  have hfb : classifyFallback text pageCount =
      (if 50 < pageCount then ((.textbook : DocumentType), (3 : ℚ)/5)
       else if occursIn "patient".data (lowerS (text.take 3000)) &&
               occursIn "diagnosis".data (lowerS (text.take 3000)) then
         (.case_report, 2/5)
       else (.unknown, 0)) := rfl
  unfold classifyDocument
  cases hpb : pickBest (candidateScores text pageCount) with
  | none => exact hfb
  | some best =>
    show (if (1 : ℚ)/5 < best.2 then best else classifyFallback text pageCount) = _
    rw [if_neg (not_lt.2 (h best (pickBest_mem hpb)))]
    exact hfb

theorem c6_fallback_rules_witness :
    (∀ x ∈ candidateScores ([] : Str) 80, x.2 ≤ 1/5) ∧
      classifyDocument [] 80 = (.textbook, 3/5) := by
  refine ⟨by decide, ?_⟩
  exact (c6_fallback_rules [] 80 (by decide)).trans (if_pos (by norm_num))

/-- C7 (counterexample): on the CaseReport scenario text (pageCount 3)
the registry's CaseReport candidate score is 9/20 = 0.45 (raw score 4.5
divided by the ten registered keywords+patterns), whereas normalizing by
the match counters as the claim states would give 4.5/3 = 3/2 — the two
disagree. -/
theorem c7_match_count_normalization_false :
    (DocumentType.case_report, (9 : ℚ)/20) ∈ candidateScores c5text 3 ∧
      claimedMatchNormFormula caseReportSig (lowerS (c5text.take 3000)) 3 = 3/2 ∧
      ¬((9 : ℚ)/20 = 3/2) := by
  refine ⟨by decide, by decide, by norm_num⟩

/-- C7 (amended): a registered type enters the candidate set iff at
least one of its keywords or patterns matched the window, and its
candidate score is the raw penalized score divided by
`max(len(keywords) + len(patterns), 1)` — the registry sizes, not the
match counters — then multiplied by the type weight. -/
theorem c7_candidate_iff_amended (text : Str) (pageCount : Nat) (dt : DocumentType)
    (sig : TypeSig) (hmem : (dt, sig) ∈ docTypePatterns) :
    ((∃ q, (dt, q) ∈ candidateScores text pageCount) ↔
        0 < kwMatches sig (lowerS (text.take 3000)) +
            patMatches sig (lowerS (text.take 3000))) ∧
      ∀ q, (dt, q) ∈ candidateScores text pageCount →
        q = scoreFormula sig (lowerS (text.take 3000)) pageCount := by
  constructor
  · constructor
    · rintro ⟨q, hq⟩
      exact ((typeScore_eq_some_iff sig _ pageCount q).1
        ((mem_candidateScores_iff text pageCount dt sig hmem q).1 hq)).1
    · intro hpos
      exact ⟨scoreFormula sig _ pageCount,
        (mem_candidateScores_iff text pageCount dt sig hmem _).2
          ((typeScore_eq_some_iff sig _ pageCount _).2 ⟨hpos, rfl⟩)⟩
  · intro q hq
    exact ((typeScore_eq_some_iff sig _ pageCount q).1
      ((mem_candidateScores_iff text pageCount dt sig hmem q).1 hq)).2

theorem c7_candidate_iff_witness :
    ((DocumentType.case_report, caseReportSig) ∈ docTypePatterns) ∧
      (((∃ q, (DocumentType.case_report, q) ∈ candidateScores c5text 3) ↔
          0 < kwMatches caseReportSig (lowerS (c5text.take 3000)) +
              patMatches caseReportSig (lowerS (c5text.take 3000))) ∧
        ∀ q, (DocumentType.case_report, q) ∈ candidateScores c5text 3 →
          q = scoreFormula caseReportSig (lowerS (c5text.take 3000)) 3) :=
  ⟨by unfold docTypePatterns; exact List.mem_cons_self _ _,
    c7_candidate_iff_amended c5text 3 .case_report caseReportSig
      (by unfold docTypePatterns; exact List.mem_cons_self _ _)⟩

/-- C8: a platelet value is stored iff some platelet match parses (with
commas stripped) to it and it lies in [1000, 1000000]; a WBC value iff
the parse lies in [100, 100000].  On `c8text` the raw matches are
"2,000,000" and "150,000" but only 150000 enters the series. -/
theorem c8_plausibility_filtering :
    (∀ (text : Str) (v : Nat), v ∈ plateletValues text ↔
        ∃ raw ∈ plateletRaw text,
          parseIntComma raw = some v ∧ 1000 ≤ v ∧ v ≤ 1000000) ∧
      (∀ (text : Str) (v : Nat), v ∈ wbcValues text ↔
        ∃ raw ∈ wbcRaw text, parseIntComma raw = some v ∧ 100 ≤ v ∧ v ≤ 100000) ∧
      plateletRaw c8text = ["2,000,000".data, "150,000".data] ∧
      plateletValues c8text = [150000] := by
  refine ⟨fun text v => filterRange_mem_iff _ _ _ _,
    fun text v => filterRange_mem_iff _ _ _ _, by decide, by decide⟩

/-- C9: in every extracted lab report, `critical_values` is contained in
`abnormal_values`, which is contained in `tests` (each critical entry
was appended exactly when an abnormal entry was, and each abnormal entry
alongside a test entry). -/
theorem c9_nested_lists (text : Str) :
    (∀ t ∈ (extractLabReportData text).critical_values,
        t ∈ (extractLabReportData text).abnormal_values) ∧
      (∀ t ∈ (extractLabReportData text).abnormal_values,
        t ∈ (extractLabReportData text).tests) := by
  unfold extractLabReportData
  exact foldl_labStep_invariant _ _ (by simp) (by simp)

theorem c9_nested_lists_witness :
    (⟨"critical Na".data, "120".data, [], []⟩ : LabTest) ∈
        (extractLabReportData c9text).abnormal_values ∧
      (⟨"critical Na".data, "120".data, [], []⟩ : LabTest) ∈
        (extractLabReportData c9text).tests := by
  have h1 := (c9_nested_lists c9text).1 ⟨"critical Na".data, "120".data, [], []⟩ (by decide)
  exact ⟨h1, (c9_nested_lists c9text).2 _ h1⟩

/-- C10: every chunk emitted by `create_specialized_chunks` has a
non-empty text whose last character is `'.'` (the builder re-appends
`'. '` to every unit and `strip()` keeps the period), and the text
contains no newline (line breaks were replaced by spaces before
splitting). -/
theorem c10_chunk_text_shape (text : Str) (dt : DocumentType) (meta : List (Str × Str)) :
    ∀ c ∈ createSpecializedChunks text dt meta,
      c.text ≠ [] ∧ c.text.getLast? = some '.' ∧ ∀ ch ∈ c.text, ch ≠ '\n' := by
  intro c hc
  refine chunkLoop_text_props (chunkParams dt).1 (chunkParams dt).2 dt meta
    (sentencesOf text) [] 0 (Or.inl rfl) (by simp) ?_ c hc
  intro s hs ch hch
  have hmem : ch ∈ text.map (fun c => if c = '\n' then ' ' else c) :=
    splitDotSpace_chars _ s hs ch hch
  rw [List.mem_map] at hmem
  obtain ⟨a, _, ha⟩ := hmem
  intro hcontra
  subst hcontra
  by_cases hA : a = '\n'
  · rw [if_pos hA] at ha
    exact absurd ha (by decide)
  · rw [if_neg hA] at ha
    exact hA ha

theorem c10_chunk_text_shape_witness :
    (⟨"unknown_0".data, "Hello world. Bye.".data, 0, "text".data, .case_report, []⟩ : Chunk) ∈
        createSpecializedChunks chunkDemoText .case_report [] ∧
      (("Hello world. Bye.".data : Str) ≠ [] ∧
        ("Hello world. Bye.".data : Str).getLast? = some '.' ∧
        ∀ ch ∈ ("Hello world. Bye.".data : Str), ch ≠ '\n') := by
  refine ⟨by decide, ?_⟩
  exact c10_chunk_text_shape chunkDemoText .case_report []
    ⟨"unknown_0".data, "Hello world. Bye.".data, 0, "text".data, .case_report, []⟩ (by decide)

end MedDiag
